import Mathlib

/-!
Verification of the MES retrieval-and-templating tool (`src/main.py`).

The Python source is shallowly embedded: text lines become `List Char`,
Python dicts become ordered association lists, the JSON values of the wire
protocol become an inductive `Json` type, and the orchestrator (`main`)
becomes a function from an environment describing the outside world
(config, serial file, per-attempt HTTP outcomes, write outcomes) to an
exit code and a count of HTTP requests issued.
-/

namespace MES

/-- A line of text, as a list of characters (Python `str`). -/
abbrev Line : Type := List Char

/-- A Python dict mapping strings to strings, as an ordered association
list (Python dicts preserve insertion order; keys are unique). -/
abbrev PyDict : Type := List (Line × Line)

/-- ASCII whitespace, the characters removed by Python `str.strip()`
(restricted to the ASCII range, which is all the source ever strips). -/
def isSpace (c : Char) : Bool :=
  c = ' ' || c = '\t' || c = '\n' || c = '\r' || c = '\x0b' || c = '\x0c'

/-- Python `str.strip()`: remove whitespace from both ends. -/
def pyStrip (l : Line) : Line :=
  ((l.dropWhile isSpace).reverse.dropWhile isSpace).reverse

/-- Helper for Python `str.find`: the least index `≥ i` (counting from the
start of the original list) at which `pat` occurs in `l`, scanning `l`. -/
def findSubAux (pat : List Char) : List Char → Nat → Option Nat
  | [], i => if pat = [] then some i else none
  | c :: rest, i =>
    if pat.isPrefixOf (c :: rest) then some i else findSubAux pat rest (i + 1)

/-- Python `l.find(pat)`: index of the first occurrence of the substring
`pat` in `l` (`none` for Python's `-1`). -/
def pyFindSub (l pat : List Char) : Option Nat :=
  findSubAux pat l 0

/-- Python `l.find(c, start)` for a one-character pattern: index of the
first occurrence of `c` in `l` at or after position `start`. -/
def pyFindCharFrom (l : List Char) (c : Char) (start : Nat) : Option Nat :=
  (findSubAux [c] (l.drop start) 0).map (· + start)

/-- Python `pat in l` (substring containment). -/
def pyContains (l pat : List Char) : Bool :=
  (pyFindSub l pat).isSome

/-- Python dict lookup `d[k]` / `k in d` on an association list: the value
bound to the first occurrence of `k`. -/
def pyLookup (d : PyDict) (k : Line) : Option Line :=
  match d with
  | [] => none
  | (k', v) :: rest => if k' = k then some v else pyLookup rest k

/-- Source lines 133-134: `if not line.endswith('\n'): line += '\n'`. -/
def normLine (line0 : Line) : Line :=
  if line0.getLast? = some '\n' then line0 else line0 ++ ['\n']

/-- Source lines 136-143 of `process_mes_template`: placeholder detection
and key extraction.  On the stripped line the code requires `"##"` and one
of `"="`/`":"` to occur (line 136); the separator is `'='` whenever `'='`
occurs in the stripped line, else `':'` (line 137); `start_idx` is the
first `"##"` in the (newline-normalized) line (line 139), `sep_idx` the
first separator at or after it (line 140); if `sep_idx > start_idx`
(line 142) the key is `line[start_idx+2:sep_idx].strip()` (line 143).
Returns `(sep_idx, key)`. -/
def templateParse (line0 : Line) : Option (Nat × Line) :=
  if pyContains (pyStrip line0) ['#', '#'] &&
      (pyContains (pyStrip line0) ['='] || pyContains (pyStrip line0) [':']) then
    match pyFindSub (normLine line0) ['#', '#'] with
    | none => none
    | some st =>
      match pyFindCharFrom (normLine line0)
          (if pyContains (pyStrip line0) ['='] then '=' else ':') st with
      | none => none
      | some si =>
        if st < si then
          some (si, pyStrip (((normLine line0).take si).drop (st + 2)))
        else none
  else none

/-- Source lines 145-153: if the extracted key is in `mes_data` the line is
filled as `line[:sep_idx+1] + value + '\n'`; returns the key together with
the filled line, `none` when the line falls through to passthrough. -/
def lineFill (d : PyDict) (line0 : Line) : Option (Line × Line) :=
  match templateParse line0 with
  | some (si, key) =>
    match pyLookup d key with
    | some v => some (key, (normLine line0).take (si + 1) ++ v ++ ['\n'])
    | none => none
  | none => none

/-- The mutable state of the template loop: `remaining_keys` (line 121) and
`new_content` (line 122). -/
structure MState : Type where
  remaining : List Line
  content : List Line

/-- One iteration of the loop at lines 131-157: a filled placeholder line
appends the filled line and removes its key from `remaining_keys`
(lines 145-153, `continue`); every other line is appended unchanged after
newline normalization (line 157). -/
def processLine (d : PyDict) (st : MState) (line0 : Line) : MState :=
  match lineFill d line0 with
  | some (key, newLine) => ⟨st.remaining.erase key, st.content ++ [newLine]⟩
  | none => ⟨st.remaining, st.content ++ [normLine line0]⟩

/-- `process_mes_template` (source lines 104-173) with the timestamp
abstracted: `ts` stands for the formatted `datetime.now()` string of
line 127, emitted first with a newline (line 128).  After the loop, if
`remaining_keys` is non-empty each remaining key contributes a
`##key=value\n` line (lines 160-163); when the last emitted line strips to
`"##"` the new lines are spliced before it (lines 166-169), otherwise they
are appended (line 171). -/
def process_mes_template (ts : Line) (lines : List Line) (d : PyDict) : List Line :=
  let st := lines.foldl (processLine d) ⟨d.map Prod.fst, [ts ++ ['\n']]⟩
  if st.remaining = [] then st.content
  else
    let newKeys := st.remaining.map
      (fun k => ['#', '#'] ++ k ++ ['='] ++ (pyLookup d k).getD [] ++ ['\n'])
    match st.content.getLast? with
    | some last =>
      if pyStrip last = ['#', '#'] then st.content.dropLast ++ newKeys ++ [last]
      else st.content ++ newKeys
    | none => st.content ++ newKeys

/-- The output line produced for one template line (projection of
`processLine` onto `new_content`). -/
def outLine (d : PyDict) (line0 : Line) : Line :=
  match lineFill d line0 with
  | some (_, newLine) => newLine
  | none => normLine line0

/-- The effect of one template line on `remaining_keys` (projection of
`processLine` onto `remaining_keys`). -/
def eraseStep (d : PyDict) (r : List Line) (line0 : Line) : List Line :=
  match lineFill d line0 with
  | some (key, _) => r.erase key
  | none => r

/-- Convenience: the characters of a string literal. -/
def str (s : String) : Line := s.toList

/-- JSON values, the possible results of `response.json()`. -/
inductive Json : Type where
  | null
  | bool (b : Bool)
  | num (n : Int)
  | str (s : Line)
  | arr (elems : List Json)
  | obj (fields : List (Line × Json))

/-- Lookup of a field in a JSON object's field list. -/
def jsonGet : List (Line × Json) → Line → Option Json
  | [], _ => none
  | (k, v) :: rest, key => if k = key then some v else jsonGet rest key

/-- Python `resp_json.get(key)` with default `None`: returns the bound
value (missing key gives Python `None`, i.e. `Json.null`); raises
`AttributeError` (`Except.error`) when the receiver is not a dict. -/
def pyGet (j : Json) (key : Line) : Except Unit Json :=
  match j with
  | .obj fields => .ok ((jsonGet fields key).getD .null)
  | _ => .error ()

/-- Python `x is True` for a JSON value. -/
def isTrueVal : Json → Bool
  | .bool b => b
  | _ => false

/-- Source line 228 together with line 121: `resp_json.get('data', {})`
followed by `list(mes_data.keys())` inside `process_mes_template`.
An absent `data` field yields the default empty dict; a present mapping
yields its fields; a present non-mapping (list, string, number, bool,
null) makes `list(mes_data.keys())` raise `AttributeError` (`none`),
so the merge never completes.  The receiver must itself be a dict
(guaranteed on the success path, where `.get('success')` succeeded). -/
def dataDict (j : Json) : Option (List (Line × Json)) :=
  match j with
  | .obj fields =>
    match jsonGet fields (str "data") with
    | none => some []
    | some (.obj dfields) => some dfields
    | some _ => none
  | _ => none

/-- What the outside world does on one HTTP attempt: either the request
raises `requests.exceptions.RequestException` (connection error, timeout),
or it returns a status code and a body (`none` = body is not valid JSON,
modelling `JSONDecodeError`). -/
inductive AttemptSpec : Type where
  | transportError
  | httpResponse (status : Nat) (body : Option Json)

/-- One iteration of the retry loop (source lines 214-248), reduced to
whether `response`/`mes_data_content` end up set: transport exception
(lines 246-248), non-200 status (lines 242-244), unparsable JSON
(lines 239-241) and a business-logic failure (lines 235-238) all leave
`response = None` (`ok false`); `.get` on a non-dict JSON body raises an
uncaught `AttributeError` (`error`).  When `resp_json.get('success') is
True` (lines 223-225) the success branch first runs
`process_mes_template` on `resp_json.get('data', {})` (lines 228-232)
and only then breaks (line 234): if `data` is a present non-mapping,
`list(mes_data.keys())` (line 121) raises an uncaught `AttributeError`
(`error`, via `dataDict`); with a mapping (or absent) `data` the merge
is a total function and the attempt succeeds (`ok true`). -/
def attemptStep : AttemptSpec → Except Unit Bool
  | .transportError => .ok false
  | .httpResponse status body =>
    if status = 200 then
      match body with
      | none => .ok false
      | some j =>
        match pyGet j (str "success") with
        | .error e => .error e
        | .ok v =>
          if isTrueVal v then
            match dataDict j with
            | none => .error ()
            | some _ => .ok true
          else .ok false
    else .ok false

/-- The retry loop (source lines 213-252) run over the list of attempt
behaviours, one entry per loop iteration (the list has `retry_count`
entries).  Returns `(requests issued, sleeps performed, success)`:
a successful attempt breaks immediately (line 234); a failed attempt
sleeps `retry_delay` seconds unless it was the last one (lines 250-252);
an uncaught exception aborts the run (`error`). -/
def runRetry : List AttemptSpec → Except Unit (Nat × Nat × Bool)
  | [] => .ok (0, 0, false)
  | a :: rest =>
    match attemptStep a with
    | .error e => .error e
    | .ok true => .ok (1, 0, true)
    | .ok false =>
      if rest.isEmpty then .ok (1, 0, false)
      else
        match runRetry rest with
        | .error e => .error e
        | .ok (r, s, b) => .ok (r + 1, s + 1, b)

/-- Whether one attempt satisfies the dual success check (HTTP 200 and
`success is True`), i.e. breaks the retry loop. -/
def attemptIsSuccess (a : AttemptSpec) : Bool :=
  match attemptStep a with
  | .ok true => true
  | _ => false

/-- The serial-number file as the run finds it: missing, unreadable, or
present with some raw text content. -/
inductive SNFile : Type where
  | missing
  | readError
  | content (text : Line)

/-- `get_mb_sn` (source lines 86-101): `None` when the file is missing
(lines 88-90), when reading raises (lines 99-101), or when the stripped
content is empty (lines 93-96); otherwise the stripped serial. -/
def get_mb_sn : SNFile → Option Line
  | .missing => none
  | .readError => none
  | .content t => if pyStrip t = [] then none else some (pyStrip t)

/-- The template file as the run finds it (source lines 112-119). -/
inductive TemplateRead : Type where
  | ok (lines : List Line)
  | missing
  | readError

/-- The template lines actually used by `process_mes_template`
(source lines 110-119): `lines` stays `[]` both when the file is missing
(line 119) and when reading it raises (lines 116-117, the exception is
caught and only logged). -/
def templateLines : TemplateRead → List Line
  | .ok lines => lines
  | .missing => []
  | .readError => []

/-- Outcome of one output-file write. -/
inductive WriteOutcome : Type where
  | ok
  | ioError

/-- The outside world of one run of `main`. -/
structure Env : Type where
  configOk : Bool
  serialFile : SNFile
  retry_count : Nat
  attempts : Nat → AttemptSpec
  processedWrite : WriteOutcome
  rawWrite : WriteOutcome

/-- `main` (source lines 190-282), reduced to the exit code and the number
of HTTP requests issued, as a function of the environment.  Config failure
(lines 199-201) and serial failure (lines 203-205) call
`show_error_and_exit`, which exits 1 (line 187), before any request.
Retry exhaustion exits 1 (lines 254-255).  A loop success (`ok .. true`)
means the dual check passed and the merge at line 232 completed without
raising (see `attemptStep`); then a failed processed write exits 1
(lines 264-266), the raw write is attempted and an `IOError` there is only
logged (lines 278-279), after which `main` exits 0 (line 282).  `none`
models an uncaught exception aborting the run before any write — an
`AttributeError` from a non-dict body at line 223 or from a present
non-mapping `data` at line 121, propagated out of the loop by
`runRetry`. -/
def main (env : Env) : Option (Nat × Nat) :=
  match env.configOk with
  | false => some (1, 0)
  | true =>
    match get_mb_sn env.serialFile with
    | none => some (1, 0)
    | some _ =>
      match runRetry ((List.range env.retry_count).map env.attempts) with
      | .error _ => none
      | .ok (reqs, _, true) =>
        match env.processedWrite with
        | .ioError => some (1, reqs)
        | .ok =>
          match env.rawWrite with
          | .ioError => some (0, reqs)
          | .ok => some (0, reqs)
      | .ok (reqs, _, false) => some (1, reqs)

/-- The process entry point (source lines 284-304): `main` wrapped in the
`KeyboardInterrupt` handler, which exits 130 (lines 302-304).  The flag
says whether the user interrupted the run. -/
def programExit (interrupted : Bool) (env : Env) : Option Nat :=
  if interrupted then some 130 else (main env).map Prod.fst

/-- The first-separator-after-`##` extraction rule as the spec states it
(spec 4.2, claim C1): the separator is whichever of `=`/`:` occurs first
after the `##` marker, and the key is the trimmed text between `##` and
that first separator.  Stated from the spec's words, to be compared with
`templateParse` (which is translated from the source). -/
def specFirstSepParse (line0 : Line) : Option (Nat × Line) :=
  if ['#', '#'] <:+: pyStrip line0 ∧ ('=' ∈ pyStrip line0 ∨ ':' ∈ pyStrip line0) then
    match pyFindSub (normLine line0) ['#', '#'] with
    | none => none
    | some st =>
      match ((normLine line0).drop st).findIdx? (fun c => c = '=' || c = ':') with
      | none => none
      | some k =>
        if st < st + k then
          some (st + k, pyStrip (((normLine line0).take (st + k)).drop (st + 2)))
        else none
  else none

/-- The amended separator rule, stated from the amended claim's words: the
separator is `'='` whenever `'='` occurs anywhere in the stripped line
(even before `##`, or when `':'` comes first after `##`), and `':'` only
when no `'='` occurs; the key is the trimmed text between `##` and the
first occurrence of that separator at or after the `##` marker (the line
is passthrough when the chosen separator does not occur there). -/
def specAmendedParse (line0 : Line) : Option (Nat × Line) :=
  if ['#', '#'] <:+: pyStrip line0 ∧ ('=' ∈ pyStrip line0 ∨ ':' ∈ pyStrip line0) then
    match pyFindSub (normLine line0) ['#', '#'] with
    | none => none
    | some st =>
      if (if '=' ∈ pyStrip line0 then '=' else ':') ∈ (normLine line0).drop st then
        if st < st + ((normLine line0).drop st).indexOf
            (if '=' ∈ pyStrip line0 then '=' else ':') then
          some (st + ((normLine line0).drop st).indexOf
              (if '=' ∈ pyStrip line0 then '=' else ':'),
            pyStrip (((normLine line0).take (st + ((normLine line0).drop st).indexOf
              (if '=' ∈ pyStrip line0 then '=' else ':'))).drop (st + 2)))
        else none
      else none
  else none

end MES

namespace MES

theorem processLine_eq (d : PyDict) (st : MState) (line0 : Line) :
    processLine d st line0 =
      ⟨eraseStep d st.remaining line0, st.content ++ [outLine d line0]⟩ := by
  unfold processLine eraseStep outLine
  rcases h : lineFill d line0 with _ | ⟨k, nl⟩ <;> simp [h]

theorem foldl_content (d : PyDict) (lines : List Line) : ∀ r c : List Line,
    (List.foldl (processLine d) ⟨r, c⟩ lines).content = c ++ lines.map (outLine d) := by
  induction lines with
  | nil => intro r c; simp
  | cons line rest ih =>
    intro r c
    rw [List.foldl_cons, processLine_eq, ih]
    simp

theorem foldl_remaining (d : PyDict) (lines : List Line) : ∀ r c : List Line,
    (List.foldl (processLine d) ⟨r, c⟩ lines).remaining =
      List.foldl (eraseStep d) r lines := by
  induction lines with
  | nil => intro r c; simp
  | cons line rest ih =>
    intro r c
    rw [List.foldl_cons, processLine_eq, ih, List.foldl_cons]

theorem mem_foldl_eraseStep (d : PyDict) (lines : List Line) : ∀ r : List Line,
    r.Nodup → ∀ x,
    (x ∈ List.foldl (eraseStep d) r lines ↔
      x ∈ r ∧ ∀ line ∈ lines, ∀ k v, lineFill d line = some (k, v) → k ≠ x) := by
  induction lines with
  | nil => intro r _ x; simp
  | cons line rest ih =>
    intro r hnd x
    rw [List.foldl_cons]
    have hnd' : (eraseStep d r line).Nodup := by
      unfold eraseStep
      rcases lineFill d line with _ | ⟨k, nl⟩
      · exact hnd
      · exact hnd.erase k
    rw [ih (eraseStep d r line) hnd' x]
    unfold eraseStep
    rcases h : lineFill d line with _ | ⟨k, nl⟩
    · constructor
      · rintro ⟨hx, hrest⟩
        refine ⟨hx, ?_⟩
        intro line' hl' k' v' hf
        rcases List.mem_cons.mp hl' with rfl | hl'
        · rw [h] at hf; exact absurd hf (by simp)
        · exact hrest line' hl' k' v' hf
      · rintro ⟨hx, hall⟩
        exact ⟨hx, fun line' hl' k' v' hf => hall line' (List.mem_cons_of_mem _ hl') k' v' hf⟩
    · rw [hnd.mem_erase_iff]
      constructor
      · rintro ⟨⟨hxk, hx⟩, hrest⟩
        refine ⟨hx, ?_⟩
        intro line' hl' k' v' hf
        rcases List.mem_cons.mp hl' with rfl | hl'
        · rw [h] at hf
          intro hk'
          apply hxk
          rw [← hk']
          exact (Prod.mk.injEq .. ▸ (Option.some.inj hf)).1.symm
        · exact hrest line' hl' k' v' hf
      · rintro ⟨hx, hall⟩
        refine ⟨⟨?_, hx⟩, fun line' hl' k' v' hf =>
          hall line' (List.mem_cons_of_mem _ hl') k' v' hf⟩
        intro hxk
        exact hall line (List.mem_cons_self _ _) k nl h (hxk ▸ rfl)

/-- Claim C3, as frozen, is false: the template `["##A=\n"]` has one
placeholder line whose key `A` is present in the data map
`{A: 1, B: 2}`, yet the merge appends the `##`-prefixed line `##B=2`
after the template lines (the claim demands zero appended lines). -/
theorem c3_counterexample :
    templateParse (str "##A=\n") = some (3, str "A")
    ∧ pyLookup [(str "A", str "1"), (str "B", str "2")] (str "A") = some (str "1")
    ∧ process_mes_template (str "T") [str "##A=\n"] [(str "A", str "1"), (str "B", str "2")]
        = [str "T\n", str "##A=1\n", str "##B=2\n"]
    ∧ [str "T\n", str "##A=1\n", str "##B=2\n"] ≠ [str "T\n", str "##A=1\n"] := by
  decide

/-- Claim C3 (amended): for every template whose placeholder lines all
have keys present in the data map, AND every data-map key is the key of
some placeholder line, the merge output is the timestamp line followed by
exactly one output line per template line (so zero `##`-prefixed lines are
appended), and each placeholder line is emitted with its value
substituted after the separator. -/
theorem c3_all_keys_matched (ts : Line) (lines : List Line) (d : PyDict)
    (hnd : (d.map Prod.fst).Nodup)
    (h1 : ∀ line ∈ lines, ∀ si k, templateParse line = some (si, k) →
      ∃ v, pyLookup d k = some v)
    (h2 : ∀ kv ∈ d, ∃ line ∈ lines, ∃ si, templateParse line = some (si, kv.1)) :
    process_mes_template ts lines d = (ts ++ ['\n']) :: lines.map (outLine d)
    ∧ ∀ line ∈ lines, ∀ si k, templateParse line = some (si, k) →
        ∃ v, pyLookup d k = some v ∧
          outLine d line = (normLine line).take (si + 1) ++ v ++ ['\n'] := by
  have hrem : (List.foldl (processLine d) ⟨d.map Prod.fst, [ts ++ ['\n']]⟩ lines).remaining
      = [] := by
    rw [foldl_remaining, List.eq_nil_iff_forall_not_mem]
    intro x hx
    rw [mem_foldl_eraseStep d lines _ hnd x] at hx
    obtain ⟨hxk, hnofill⟩ := hx
    obtain ⟨kv, hkv, rfl⟩ := List.mem_map.mp hxk
    obtain ⟨line, hline, si, hparse⟩ := h2 kv hkv
    obtain ⟨v, hv⟩ := h1 line hline si kv.1 hparse
    exact hnofill line hline kv.1 ((normLine line).take (si + 1) ++ v ++ ['\n'])
      (by simp [lineFill, hparse, hv]) rfl
  constructor
  · simp only [process_mes_template]
    rw [hrem]
    simp only [if_pos rfl]
    rw [foldl_content]
    simp
  · intro line hl si k hp
    obtain ⟨v, hv⟩ := h1 line hl si k hp
    exact ⟨v, hv, by simp [outLine, lineFill, hp, hv]⟩

/-- Witness for `c3_all_keys_matched` at a concrete input. -/
theorem c3_witness :
    process_mes_template (str "T") [] [] = [str "T\n"] := by
  have h := c3_all_keys_matched (str "T") [] []
    (by simp)
    (by intro line hl; exact absurd hl (List.not_mem_nil line))
    (by intro kv hkv; exact absurd hkv (List.not_mem_nil kv))
  simpa using h.1

/-- Claim C6: with template lines `PREFIX##LINE=\n` then `##\n` and data
`{LINE: L1, EXTRA: E1}`, the unmapped key `EXTRA` is spliced in before the
trailing `##` line, which remains final: the output is the timestamp line,
`PREFIX##LINE=L1\n`, `##EXTRA=E1\n`, `##\n`. -/
theorem c6_trailing_marker_splice (ts : Line) :
    process_mes_template ts [str "PREFIX##LINE=\n", str "##\n"]
        [(str "LINE", str "L1"), (str "EXTRA", str "E1")]
      = [ts ++ ['\n'], str "PREFIX##LINE=L1\n", str "##EXTRA=E1\n", str "##\n"] := by
  rfl

theorem foldl_eraseStep_nil (d : PyDict) (lines : List Line) :
    List.foldl (eraseStep d) [] lines = [] := by
  induction lines with
  | nil => rfl
  | cons line rest ih =>
    rw [List.foldl_cons]
    have he : eraseStep d [] line = [] := by
      unfold eraseStep
      rcases h : lineFill d line with _ | ⟨k, nl⟩ <;> simp [h]
    rw [he, ih]

theorem normLine_endsNL (line0 : Line) : (normLine line0).getLast? = some '\n' := by
  unfold normLine
  split
  · assumption
  · exact List.getLast?_concat line0

theorem lineFill_endsNL (d : PyDict) (line0 : Line) (k nl : Line)
    (h : lineFill d line0 = some (k, nl)) : nl.getLast? = some '\n' := by
  unfold lineFill at h
  rcases hp : templateParse line0 with _ | ⟨si, key⟩ <;> simp only [hp] at h
  · exact Option.noConfusion h
  · rcases hv : pyLookup d key with _ | v <;>
      simp only [hv, Option.some.injEq, Prod.mk.injEq] at h
    · exact Option.noConfusion h
    · rw [← h.2]
      exact List.getLast?_concat _

theorem outLine_endsNL (d : PyDict) (line0 : Line) :
    (outLine d line0).getLast? = some '\n' := by
  unfold outLine
  rcases h : lineFill d line0 with _ | ⟨k, nl⟩
  · exact normLine_endsNL line0
  · exact lineFill_endsNL d line0 k nl h

/-- Claim C9: every line returned by the template merger ends with the
newline character: the timestamp line, each passthrough or filled template
line, each appended `##key=value` line, and a re-appended trailing `##`
line. -/
theorem c9_lines_end_with_newline (ts : Line) (lines : List Line) (d : PyDict) :
    ∀ l ∈ process_mes_template ts lines d, l.getLast? = some '\n' := by
  intro l hl
  simp only [process_mes_template] at hl
  set st := List.foldl (processLine d) ⟨d.map Prod.fst, [ts ++ ['\n']]⟩ lines with hst
  have hcontent : ∀ x ∈ st.content, x.getLast? = some '\n' := by
    rw [hst, foldl_content]
    intro x hx
    rcases List.mem_append.mp hx with hx | hx
    · rw [List.mem_singleton.mp hx]
      exact List.getLast?_concat ts
    · obtain ⟨line, -, rfl⟩ := List.mem_map.mp hx
      exact outLine_endsNL d line
  have hnew : ∀ x ∈ st.remaining.map
      (fun k => ['#', '#'] ++ k ++ ['='] ++ (pyLookup d k).getD [] ++ ['\n']),
      x.getLast? = some '\n' := by
    intro x hx
    obtain ⟨k, -, rfl⟩ := List.mem_map.mp hx
    exact List.getLast?_concat _
  by_cases hrem : st.remaining = []
  · rw [if_pos hrem] at hl
    exact hcontent l hl
  · rw [if_neg hrem] at hl
    rcases hlast : st.content.getLast? with _ | last <;> simp only [hlast] at hl
    · exact (List.mem_append.mp hl).elim (hcontent l) (hnew l)
    · by_cases hsp : pyStrip last = ['#', '#']
      · rw [if_pos hsp] at hl
        rcases List.mem_append.mp hl with hl2 | hl2
        · rcases List.mem_append.mp hl2 with hl3 | hl3
          · exact hcontent l (List.mem_of_mem_dropLast hl3)
          · exact hnew l hl3
        · rw [List.mem_singleton.mp hl2]
          exact hcontent last (List.mem_of_getLast?_eq_some hlast)
      · rw [if_neg hsp] at hl
        exact (List.mem_append.mp hl).elim (hcontent l) (hnew l)

/-- Witness for `c9_lines_end_with_newline` at a concrete input. -/
theorem c9_witness :
    str "T\n" ∈ process_mes_template (str "T") [] []
    ∧ (str "T\n").getLast? = some '\n' :=
  ⟨by decide, c9_lines_end_with_newline (str "T") [] [] (str "T\n") (by decide)⟩

/-- Claim C10: when the template file exists but reading it raises, the
merge proceeds exactly as if the template were missing (both leave `lines`
empty), and the output is the timestamp line plus one `##key=value` line
per data key, in data order.  The timestamp line never strips to `##`. -/
theorem c10_template_read_error_as_missing (ts : Line) (d : PyDict)
    (hts : pyStrip (ts ++ ['\n']) ≠ ['#', '#']) :
    process_mes_template ts (templateLines TemplateRead.readError) d
      = process_mes_template ts (templateLines TemplateRead.missing) d
    ∧ process_mes_template ts (templateLines TemplateRead.readError) d
      = (ts ++ ['\n']) :: (d.map Prod.fst).map
          (fun k => ['#', '#'] ++ k ++ ['='] ++ (pyLookup d k).getD [] ++ ['\n']) := by
  refine ⟨rfl, ?_⟩
  by_cases hk : d.map Prod.fst = []
  · simp [process_mes_template, templateLines, processLine, hk]
  · simp [process_mes_template, templateLines, processLine, hk, hts]

/-- Witness for `c10_template_read_error_as_missing` at a concrete input. -/
theorem c10_witness :
    pyStrip (str "T" ++ ['\n']) ≠ ['#', '#']
    ∧ process_mes_template (str "T") (templateLines TemplateRead.readError)
        [(str "A", str "1")] = [str "T\n", str "##A=1\n"] :=
  ⟨by decide, by
    have h := (c10_template_read_error_as_missing (str "T") [(str "A", str "1")]
      (by decide)).2
    simpa using h⟩

/-- Claim C2, as frozen, is false for a present non-mapping `data` field:
for the success body `{"success": true, "data": []}` the pipeline does not
treat `data` as an empty mapping — `list(mes_data.keys())` raises an
uncaught `AttributeError` (modelled as `none`), so the merge does not
succeed. -/
theorem c2_counterexample :
    dataDict (Json.obj [(str "success", Json.bool true), (str "data", Json.arr [])])
      = none
    ∧ (none : Option (List (Line × Json))) ≠ some [] := by
  constructor
  · rfl
  · intro h
    exact Option.noConfusion h

/-- Claim C2 (amended): when the success body's `data` field is absent,
the pipeline treats it as an empty mapping, and the merge succeeds with no
failure path, producing the timestamp line plus the (newline-normalized)
template lines unchanged; a present non-mapping `data` instead raises
before the merge can complete. -/
theorem c2_absent_data_empty_mapping (fields : List (Line × Json))
    (h : jsonGet fields (str "data") = none) (ts : Line) (lines : List Line) :
    dataDict (Json.obj fields) = some []
    ∧ process_mes_template ts lines [] = (ts ++ ['\n']) :: lines.map normLine := by
  constructor
  · simp only [dataDict, h]
  · have hout : lines.map (outLine []) = lines.map normLine := by
      apply List.map_congr_left
      intro line _
      unfold outLine lineFill
      rcases hp : templateParse line with _ | ⟨si, key⟩ <;> simp [hp, pyLookup]
    simp only [process_mes_template]
    rw [foldl_remaining]
    simp only [List.map_nil]
    rw [foldl_eraseStep_nil, if_pos rfl, foldl_content, hout]
    simp

/-- Witness for `c2_absent_data_empty_mapping` at a concrete input. -/
theorem c2_witness :
    jsonGet [(str "success", Json.bool true)] (str "data") = none
    ∧ dataDict (Json.obj [(str "success", Json.bool true)]) = some []
    ∧ process_mes_template (str "T") [str "A\n"] [] = [str "T\n", str "A\n"] := by
  refine ⟨rfl, ?_, ?_⟩
  · exact (c2_absent_data_empty_mapping [(str "success", Json.bool true)]
      rfl (str "T") [str "A\n"]).1
  · have h := (c2_absent_data_empty_mapping [(str "success", Json.bool true)]
      rfl (str "T") [str "A\n"]).2
    simpa [normLine] using h

theorem isEmpty_append_cons (pre : List AttemptSpec) (x : AttemptSpec)
    (post : List AttemptSpec) : (pre ++ x :: post).isEmpty = false := by
  cases pre <;> rfl

theorem runRetry_congr (a b : AttemptSpec) (hab : attemptStep a = attemptStep b) :
    ∀ pre post : List AttemptSpec,
    runRetry (pre ++ a :: post) = runRetry (pre ++ b :: post) := by
  intro pre
  induction pre with
  | nil =>
    intro post
    simp only [List.nil_append]
    unfold runRetry
    rw [hab]
  | cons p pre ih =>
    intro post
    simp only [List.cons_append]
    unfold runRetry
    rw [ih post, isEmpty_append_cons, isEmpty_append_cons]

/-- Claim C4, as frozen, is false for a non-object JSON body: on HTTP 200
with body `[]` the field `success` is missing, yet the attempt is not
recorded as a failed attempt eligible for retry — `resp_json.get` raises
an uncaught `AttributeError` (`error`), unlike a transport failure
(`ok false`). -/
theorem c4_counterexample :
    attemptStep (AttemptSpec.httpResponse 200 (some (Json.arr []))) = .error ()
    ∧ attemptStep AttemptSpec.transportError = .ok false
    ∧ (Except.error () : Except Unit Bool) ≠ .ok false :=
  ⟨rfl, rfl, fun h => Except.noConfusion h⟩

/-- Claim C4 (amended): an HTTP 200 response whose JSON body is an object
in which `success` is `false`, missing, or non-boolean is treated
identically to a transport failure: the attempt yields the same recorded
failure, and substituting one for the other anywhere in the retry loop
leaves the loop's behaviour unchanged.  (For a non-object JSON body the
attempt instead raises an uncaught error.) -/
theorem c4_business_failure_like_transport (fields : List (Line × Json))
    (h : jsonGet fields (str "success") ≠ some (Json.bool true)) :
    attemptStep (AttemptSpec.httpResponse 200 (some (Json.obj fields)))
      = attemptStep AttemptSpec.transportError
    ∧ ∀ pre post : List AttemptSpec,
      runRetry (pre ++ AttemptSpec.httpResponse 200 (some (Json.obj fields)) :: post)
        = runRetry (pre ++ AttemptSpec.transportError :: post) := by
  have h1 : attemptStep (AttemptSpec.httpResponse 200 (some (Json.obj fields)))
      = .ok false := by
    have hred : attemptStep (AttemptSpec.httpResponse 200 (some (Json.obj fields)))
        = (if isTrueVal ((jsonGet fields (str "success")).getD Json.null) then
            (match dataDict (Json.obj fields) with
              | none => Except.error ()
              | some _ => Except.ok true)
          else .ok false) := rfl
    have hfalse : isTrueVal ((jsonGet fields (str "success")).getD Json.null) = false := by
      rcases hj : jsonGet fields (str "success") with _ | v
      · simp [isTrueVal]
      · cases v with
        | bool b =>
          cases b
          · simp [isTrueVal]
          · exact absurd hj h
        | null => simp [isTrueVal]
        | num n => simp [isTrueVal]
        | str s => simp [isTrueVal]
        | arr es => simp [isTrueVal]
        | obj fs => simp [isTrueVal]
    rw [hred, hfalse]
    rfl
  have h2 : attemptStep (AttemptSpec.httpResponse 200 (some (Json.obj fields)))
      = attemptStep AttemptSpec.transportError :=
    h1.trans (show Except.ok false = attemptStep AttemptSpec.transportError from rfl)
  exact ⟨h2, fun pre post => runRetry_congr _ _ h2 pre post⟩

/-- Witness for `c4_business_failure_like_transport` at a concrete input. -/
theorem c4_witness :
    jsonGet [(str "success", Json.bool false)] (str "success") ≠ some (Json.bool true)
    ∧ attemptStep (AttemptSpec.httpResponse 200
        (some (Json.obj [(str "success", Json.bool false)])))
      = attemptStep AttemptSpec.transportError := by
  have hne : jsonGet [(str "success", Json.bool false)] (str "success")
      ≠ some (Json.bool true) := by
    intro hc
    rw [show jsonGet [(str "success", Json.bool false)] (str "success")
      = some (Json.bool false) from rfl] at hc
    simp at hc
  exact ⟨hne, (c4_business_failure_like_transport _ hne).1⟩

/-- Claim C5: over any list of attempt behaviours in which no attempt
raises, the retry loop issues exactly
`min retry_count (attempts-until-first-true-success)` HTTP requests
(`retry_count` is the length of the list, and the first true success is
located by `findIdx`), sleeps `retry_delay` exactly `requests - 1` times —
so `retry_count - 1` times when every attempt fails — and reports success
iff some attempt truly succeeded.  A sleep never follows the successful
attempt or the final failed attempt. -/
theorem c5_retry_counts (l : List AttemptSpec)
    (h : ∀ a ∈ l, ∃ b, attemptStep a = Except.ok b) :
    runRetry l = .ok
      (min l.length (l.findIdx attemptIsSuccess + 1),
       min l.length (l.findIdx attemptIsSuccess + 1) - 1,
       l.any attemptIsSuccess) := by
  induction l with
  | nil => simp [runRetry]
  | cons a rest ih =>
    rcases hsucc : attemptIsSuccess a with _ | _
    · have ha : attemptStep a = .ok false := by
        obtain ⟨b, hb⟩ := h a (List.mem_cons_self a rest)
        cases b
        · exact hb
        · exfalso
          unfold attemptIsSuccess at hsucc
          rw [hb] at hsucc
          exact Bool.noConfusion hsucc
      unfold runRetry
      rw [ha]
      cases rest with
      | nil => simp [List.findIdx_cons, hsucc]
      | cons r rs =>
        rw [ih (fun x hx => h x (List.mem_cons_of_mem _ hx))]
        simp [List.findIdx_cons, hsucc, Nat.succ_min_succ, Nat.succ_sub_one]
    · have ha : attemptStep a = .ok true := by
        unfold attemptIsSuccess at hsucc
        rcases hstep : attemptStep a with e | b <;> rw [hstep] at hsucc
        · exact Bool.noConfusion hsucc
        · cases b
          · exact Bool.noConfusion hsucc
          · rfl
      unfold runRetry
      rw [ha]
      have hmin : min (rest.length + 1) (0 + 1) = 1 :=
        Nat.min_eq_right (Nat.succ_le_succ (Nat.zero_le _))
      simp [List.findIdx_cons, hsucc, hmin]

/-- Witness for `c5_retry_counts` at a concrete input: one transport
failure then one true success gives 2 requests, 1 sleep, success. -/
theorem c5_witness :
    (∀ a ∈ [AttemptSpec.transportError, AttemptSpec.httpResponse 200
        (some (Json.obj [(str "success", Json.bool true)]))],
      ∃ b, attemptStep a = Except.ok b)
    ∧ runRetry [AttemptSpec.transportError, AttemptSpec.httpResponse 200
        (some (Json.obj [(str "success", Json.bool true)]))] = .ok (2, 1, true) := by
  have hh : ∀ a ∈ [AttemptSpec.transportError, AttemptSpec.httpResponse 200
      (some (Json.obj [(str "success", Json.bool true)]))],
      ∃ b, attemptStep a = Except.ok b := by
    intro a ha
    rcases List.mem_cons.mp ha with rfl | ha
    · exact ⟨false, rfl⟩
    rcases List.mem_cons.mp ha with rfl | ha
    · exact ⟨true, rfl⟩
    · exact absurd ha (List.not_mem_nil a)
  exact ⟨hh, (c5_retry_counts _ hh).trans rfl⟩

/-- Claim C8: for a serial-number file whose content is empty or only
whitespace, the run fails fatally (exit 1) and issues zero HTTP requests
— the fetch step is never reached. -/
theorem c8_whitespace_serial_no_request (env : Env) (t : Line)
    (hs : env.serialFile = SNFile.content t)
    (hw : ∀ c ∈ t, isSpace c = true) :
    main env = some (1, 0) := by
  have hstrip : pyStrip t = [] := by
    unfold pyStrip
    have h1 : t.dropWhile isSpace = [] := by
      rw [List.dropWhile_eq_nil_iff]
      exact hw
    rw [h1]
    rfl
  have hsn : get_mb_sn env.serialFile = none := by
    rw [hs]
    show (if pyStrip t = [] then none else some (pyStrip t)) = none
    rw [if_pos hstrip]
  unfold main
  rcases hcfg : env.configOk with _ | _ <;> simp [hcfg, hsn]

/-- Witness for `c8_whitespace_serial_no_request` at a concrete input. -/
theorem c8_witness :
    (∀ c ∈ str "  ", isSpace c = true)
    ∧ main ⟨true, SNFile.content (str "  "), 3, fun _ => AttemptSpec.transportError,
        WriteOutcome.ok, WriteOutcome.ok⟩ = some (1, 0) :=
  ⟨by decide,
    c8_whitespace_serial_no_request
      ⟨true, SNFile.content (str "  "), 3, fun _ => AttemptSpec.transportError,
        WriteOutcome.ok, WriteOutcome.ok⟩
      (str "  ") rfl (by decide)⟩

/-- Claim C7: the user-interrupt path exits 130; the raw-dump write
outcome never changes the run's result (its failure is logged only, so it
cannot prevent exit 0); a failed processed-report write never exits 0 (it
is fatal); every completed run exits 0 or 1; and a fully successful run —
config loaded, serial read, retry loop succeeded, processed write ok —
exits 0 whatever the raw write did. -/
theorem c7_exit_codes (env : Env) :
    programExit true env = some 130
    ∧ (∀ w, main { env with rawWrite := w } = main env)
    ∧ (env.processedWrite = WriteOutcome.ioError → ∀ r, main env ≠ some (0, r))
    ∧ (∀ c r, main env = some (c, r) → c = 0 ∨ c = 1)
    ∧ (∀ sn r s, env.configOk = true → get_mb_sn env.serialFile = some sn →
        runRetry ((List.range env.retry_count).map env.attempts) = Except.ok (r, s, true) →
        env.processedWrite = WriteOutcome.ok → main env = some (0, r)) := by
  obtain ⟨cfg, sf, rc, att, pw, rwo⟩ := env
  refine ⟨rfl, ?_, ?_, ?_, ?_⟩
  · intro w
    cases cfg
    · rfl
    · unfold main
      dsimp only
      rcases hsn : get_mb_sn sf with _ | sn
      · rfl
      · rcases hr : runRetry ((List.range rc).map att) with e | ⟨r, s, b⟩
        · rfl
        · cases b
          · rfl
          · cases pw
            · cases w <;> cases rwo <;> rfl
            · rfl
  · intro hpw r hmain
    obtain rfl : pw = WriteOutcome.ioError := hpw
    cases cfg
    · exact absurd (congrArg Prod.fst (Option.some.inj hmain)) one_ne_zero
    · unfold main at hmain
      dsimp only at hmain
      revert hmain
      rcases hsn : get_mb_sn sf with _ | sn
      · intro hmain
        exact absurd (congrArg Prod.fst (Option.some.inj hmain)) one_ne_zero
      · rcases hr : runRetry ((List.range rc).map att) with e | ⟨r', s', b⟩
        · intro hmain
          exact Option.noConfusion hmain
        · cases b <;> intro hmain <;>
            exact absurd (congrArg Prod.fst (Option.some.inj hmain)) one_ne_zero
  · intro c r hmain
    cases cfg
    · exact Or.inr (congrArg Prod.fst (Option.some.inj hmain)).symm
    · unfold main at hmain
      dsimp only at hmain
      revert hmain
      rcases hsn : get_mb_sn sf with _ | sn
      · intro hmain
        exact Or.inr (congrArg Prod.fst (Option.some.inj hmain)).symm
      · rcases hr : runRetry ((List.range rc).map att) with e | ⟨r', s', b⟩
        · intro hmain
          exact Option.noConfusion hmain
        · cases b
          · intro hmain
            exact Or.inr (congrArg Prod.fst (Option.some.inj hmain)).symm
          · cases pw
            · cases rwo <;> intro hmain <;>
                exact Or.inl (congrArg Prod.fst (Option.some.inj hmain)).symm
            · intro hmain
              exact Or.inr (congrArg Prod.fst (Option.some.inj hmain)).symm
  · intro sn r s hcfg hsn hr hpw
    dsimp only at hcfg hsn hr hpw
    obtain rfl : cfg = true := hcfg
    obtain rfl : pw = WriteOutcome.ok := hpw
    unfold main
    dsimp only
    rw [hsn, hr]
    cases rwo <;> rfl

/-- Witness for `c7_exit_codes` at a concrete input: a fully successful
run whose raw-dump write fails still exits 0 after 1 request, and the
interrupted run exits 130. -/
theorem c7_witness :
    programExit true ⟨true, SNFile.content (str "SN"), 1,
        fun _ => AttemptSpec.httpResponse 200
          (some (Json.obj [(str "success", Json.bool true)])),
        WriteOutcome.ok, WriteOutcome.ioError⟩ = some 130
    ∧ main ⟨true, SNFile.content (str "SN"), 1,
        fun _ => AttemptSpec.httpResponse 200
          (some (Json.obj [(str "success", Json.bool true)])),
        WriteOutcome.ok, WriteOutcome.ioError⟩ = some (0, 1) := by
  constructor
  · exact (c7_exit_codes _).1
  · exact (c7_exit_codes _).2.2.2.2 (str "SN") 1 0 rfl rfl rfl rfl

theorem findSubAux_shift (pat : List Char) (l : List Char) (i : Nat) :
    findSubAux pat l i = (findSubAux pat l 0).map (· + i) := by
  induction l generalizing i with
  | nil =>
    unfold findSubAux
    by_cases hp : pat = [] <;> simp [hp]
  | cons c rest ih =>
    unfold findSubAux
    by_cases hp : pat.isPrefixOf (c :: rest) = true
    · simp [hp]
    · simp only [hp, if_false, Bool.false_eq_true]
      rw [ih (i + 1), ih 1]
      rcases h0 : findSubAux pat rest 0 with _ | a
      · rfl
      · simp
        omega

theorem findSubAux_single (c : Char) (l : List Char) :
    findSubAux [c] l 0 = if c ∈ l then some (l.indexOf c) else none := by
  induction l with
  | nil => rfl
  | cons a rest ih =>
    unfold findSubAux
    by_cases hca : [c].isPrefixOf (a :: rest) = true
    · have hac : c = a := by simpa [List.isPrefixOf] using hca
      subst hac
      simp [List.indexOf_cons_self]
    · have hne : c ≠ a := by
        intro h
        subst h
        exact hca (by simp [List.isPrefixOf])
      rw [if_neg hca, findSubAux_shift, ih]
      by_cases hm : c ∈ rest
      · rw [if_pos hm, if_pos (List.mem_cons_of_mem a hm)]
        rw [List.indexOf_cons_ne _ (Ne.symm hne)]
        simp
      · rw [if_neg hm, if_neg (by simp [List.mem_cons, hne, hm])]
        rfl

theorem pyFindCharFrom_eq (l : List Char) (c : Char) (st : Nat) :
    pyFindCharFrom l c st =
      if c ∈ l.drop st then some (st + (l.drop st).indexOf c) else none := by
  unfold pyFindCharFrom
  rw [findSubAux_single]
  by_cases hm : c ∈ l.drop st
  · rw [if_pos hm, if_pos hm]
    simp [Nat.add_comm]
  · rw [if_neg hm, if_neg hm]
    rfl

theorem findSubAux_isSome_iff (pat l : List Char) :
    (findSubAux pat l 0).isSome = true ↔ pat <:+: l := by
  induction l with
  | nil =>
    unfold findSubAux
    by_cases hp : pat = [] <;> simp [hp, List.infix_nil]
  | cons a rest ih =>
    unfold findSubAux
    by_cases hp : pat.isPrefixOf (a :: rest) = true
    · simp only [hp, if_true, Option.isSome_some, true_iff]
      exact (List.isPrefixOf_iff_prefix.mp hp).isInfix
    · rw [if_neg hp, findSubAux_shift]
      rw [show ((findSubAux pat rest 0).map (· + 1)).isSome = (findSubAux pat rest 0).isSome
        from by rcases findSubAux pat rest 0 with _ | a <;> rfl]
      rw [ih, List.infix_cons_iff]
      constructor
      · exact Or.inr
      · rintro (hpre | hinf)
        · exact absurd (List.isPrefixOf_iff_prefix.mpr hpre) hp
        · exact hinf

theorem pyContains_iff_infix (l pat : List Char) :
    pyContains l pat = true ↔ pat <:+: l := by
  unfold pyContains pyFindSub
  exact findSubAux_isSome_iff pat l

theorem pyContains_single_iff (l : List Char) (c : Char) :
    pyContains l [c] = true ↔ c ∈ l := by
  unfold pyContains pyFindSub
  rw [findSubAux_single]
  by_cases hm : c ∈ l <;> simp [hm]

/-- Claim C1, as frozen, is false: on the line `##A:B=\n` the `:` occurs
after `##` before any `=`, so the claimed first-separator-after-`##` rule
(`specFirstSepParse`, written from the spec's words) extracts the key `A`
up to the `:`; the source instead picks `=` — because `=` occurs somewhere
in the stripped line — and extracts the key `A:B` up to the first `=`.
Observably, with data `{A: v}` the line is passed through unfilled and
`##A=v` is appended instead of `A` being filled in place. -/
theorem c1_counterexample :
    specFirstSepParse (str "##A:B=\n") = some (3, str "A")
    ∧ templateParse (str "##A:B=\n") = some (5, str "A:B")
    ∧ (some (5, str "A:B") : Option (Nat × Line)) ≠ some (3, str "A")
    ∧ process_mes_template (str "T") [str "##A:B=\n"] [(str "A", str "v")]
        = [str "T\n", str "##A:B=\n", str "##A=v\n"] := by
  refine ⟨by decide, by decide, by decide, by decide⟩

/-- Claim C1 (amended): the separator used for key extraction is `'='`
whenever `'='` occurs anywhere in the stripped line — even before `##`,
or when `':'` comes first after `##` — and `':'` only when no `'='`
occurs; the key is the trimmed text between `##` and the first occurrence
of that separator at or after the `##` marker, and the line falls through
to passthrough when the chosen separator does not occur there.  Stated as:
the source's parse (`templateParse`) coincides with the amended rule
(`specAmendedParse`) on every line. -/
theorem c1_separator_priority (line0 : Line) :
    templateParse line0 = specAmendedParse line0 := by
  have hbool : (pyContains (pyStrip line0) ['#', '#'] &&
      (pyContains (pyStrip line0) ['='] || pyContains (pyStrip line0) [':'])) = true
      ↔ (['#', '#'] <:+: pyStrip line0 ∧ ('=' ∈ pyStrip line0 ∨ ':' ∈ pyStrip line0)) := by
    rw [Bool.and_eq_true, Bool.or_eq_true, pyContains_iff_infix,
      pyContains_single_iff, pyContains_single_iff]
  have hsep : (if pyContains (pyStrip line0) ['='] then ('=' : Char) else ':')
      = (if '=' ∈ pyStrip line0 then '=' else ':') := by
    by_cases he : '=' ∈ pyStrip line0
    · rw [if_pos ((pyContains_single_iff _ _).mpr he), if_pos he]
    · rw [if_neg (fun hcc => he ((pyContains_single_iff _ _).mp hcc)), if_neg he]
  unfold templateParse specAmendedParse
  by_cases hc : ['#', '#'] <:+: pyStrip line0 ∧ ('=' ∈ pyStrip line0 ∨ ':' ∈ pyStrip line0)
  · rw [if_pos (hbool.mpr hc), if_pos hc, hsep]
    rcases hst : pyFindSub (normLine line0) ['#', '#'] with _ | st
    · rfl
    · dsimp only
      rw [pyFindCharFrom_eq]
      by_cases hm : (if '=' ∈ pyStrip line0 then ('=' : Char) else ':')
          ∈ (normLine line0).drop st
      · rw [if_pos hm, if_pos hm]
      · rw [if_neg hm, if_neg hm]
  · rw [if_neg (fun hb => hc (hbool.mp hb)), if_neg hc]

end MES
